import Mathlib

/-!
Shallow embedding of the proving core of the farmer
(`crates/subspace-farmer-components/src/proving.rs`).

Machine integers (`u16`, `u32`, `u64`) are modelled as `Nat`; the code under
study performs no wrapping arithmetic on them.  Opaque cryptographic payloads
(scalars, commitments, witnesses, proofs, polynomials) are modelled as `Nat`.
External crate functions called by `proving.rs` (sector reading, erasure
coding, KZG, proof-of-space table generation) are modelled as oracle fields of
a `ProvingEnv`; `proving.rs` itself is translated function by function.
Rust panics (`expect`) are modelled as a distinct `panic` outcome constructor.
The `FnMut` table generator is modelled as a state-threading function
`G → PosSeed → PosTable × G` so that statements about its (non-)purity can be
made explicit.
-/

namespace Subspace

/-- `Record::NUM_S_BUCKETS` from `subspace-core-primitives`. -/
def NUM_S_BUCKETS : Nat := 65536

/-- `ChunkCandidate` from `crate::auditing`: an s-bucket chunk whose audit
quality was close enough to the target. -/
structure ChunkCandidate where
  chunk_offset : Nat
  solution_distance : Nat
deriving Repr, DecidableEq

/-- `WinningChunk` (private struct in `proving.rs`). -/
structure WinningChunk where
  chunk_offset : Nat
  piece_offset : Nat
  solution_distance : Nat
deriving Repr, DecidableEq

/-- `SectorContentsMapFromBytesError` from `crate::sector` (opaque here). -/
structure SectorContentsMapFromBytesError where
  code : Nat
deriving Repr, DecidableEq

/-- `ReadingError` from `crate::reading`; only the variant that `proving.rs`
constructs itself is given structure, the rest are opaque. -/
inductive ReadingError where
  | FailedToErasureDecodeRecord (piece_offset : Nat) (error : Nat)
  | OtherReading (code : Nat)
deriving Repr, DecidableEq

/-- `ProvingError` from `proving.rs`. -/
inductive ProvingError where
  | InvalidErasureCodingInstance
  | FailedToCreatePolynomialForRecord (piece_offset : Nat) (error : Nat)
  | FailedToCreateChunkWitness (piece_offset : Nat) (chunk_offset : Nat) (error : Nat)
  | FailedToDecodeSectorContentsMap (e : SectorContentsMapFromBytesError)
  | Io (e : Nat)
  | RecordReadingError (e : ReadingError)
deriving Repr, DecidableEq

/-- `Solution` from `subspace-core-primitives`, with `PublicKey` and the
generic `RewardAddress` both modelled as `Nat`. -/
structure Solution where
  public_key : Nat
  reward_address : Nat
  sector_index : Nat
  history_size : Nat
  piece_offset : Nat
  record_commitment : Nat
  record_witness : Nat
  chunk : Nat
  chunk_witness : Nat
  proof_of_space : Nat
deriving Repr, DecidableEq

/-- `SectorMetadataChecksummed`: the fields `proving.rs` reads, plus the
`s_bucket_offsets()` accessor's data. -/
structure SectorMetadataChecksummed where
  sector_index : Nat
  pieces_in_sector : Nat
  history_size : Nat
  s_bucket_offsets_data : List Nat
deriving Repr, DecidableEq

/-- Modelled from the spec: `SectorContentsMap` (`crate::sector`, not among
the sources).  Section 3 of the design document describes it as, for each
s-bucket, an ordered list of `(local_piece_offset, encoded)` pairs of length
`pieces_in_sector`; `iter_s_bucket_records(s_bucket)` yields exactly that
row.  We model the decoded map as the rows themselves. -/
structure SectorContentsMap where
  records : List (List (Nat × Bool))
deriving Repr, DecidableEq

/-- `SectorContentsMap::iter_s_bucket_records`, returning `none` when the
s-bucket index is out of range (the caller in `proving.rs` `expect`s it). -/
def SectorContentsMap.iter_s_bucket_records (m : SectorContentsMap) (s_bucket : Nat) :
    Option (List (Nat × Bool)) :=
  m.records.get? s_bucket

/-- `PosSeed` as produced by `SectorId::derive_evaluation_seed`; external to
the sources, modelled as the tuple of its inputs (it is a deterministic
function of them, which is all `proving.rs` relies on). -/
structure PosSeed where
  sector_id : Nat
  piece_offset : Nat
  history_size : Nat
deriving Repr, DecidableEq

/-- `SectorId::derive_evaluation_seed(piece_offset, history_size)`. -/
def derive_evaluation_seed (sector_id piece_offset history_size : Nat) : PosSeed :=
  { sector_id := sector_id, piece_offset := piece_offset, history_size := history_size }

/-- A proof-of-space `Table` as used by `proving.rs`: only `find_proof` is
called directly (`find_quality` is used inside the external chunk reader). -/
structure PosTable where
  find_quality : Nat → Option Nat
  find_proof : Nat → Option Nat

/-- `RecordMetadata` as returned by `read_record_metadata`. -/
structure RecordMetadata where
  commitment : Nat
  witness : Nat
deriving Repr, DecidableEq

/-- Oracles for everything `proving.rs` calls in other crates, plus the
caller-supplied `FnMut` table generator modelled with explicit state `G`. -/
structure ProvingEnv (G : Type) where
  /-- `ReadAtSync::read_at` on the sector handle: length and offset to bytes. -/
  sector_read_at : Nat → Nat → Except Nat (List Nat)
  /-- `SectorContentsMap::encoded_size(pieces_in_sector)`. -/
  encoded_size : Nat → Nat
  /-- `SectorContentsMap::from_bytes(bytes, pieces_in_sector)`. -/
  from_bytes : List Nat → Nat → Except SectorContentsMapFromBytesError SectorContentsMap
  /-- `read_sector_record_chunks(piece_offset, pieces_in_sector,
  s_bucket_offsets, sector_contents_map, pos_table)`. -/
  read_sector_record_chunks :
    Nat → Nat → List Nat → SectorContentsMap → PosTable → Except ReadingError (List (Option Nat))
  /-- `ErasureCoding::recover_poly`. -/
  recover_poly : List (Option Nat) → Except Nat Nat
  /-- `read_record_metadata(piece_offset, pieces_in_sector)`. -/
  read_record_metadata : Nat → Nat → Except ReadingError RecordMetadata
  /-- `Kzg::create_witness(polynomial, num_values, index)`. -/
  create_witness : Nat → Nat → Nat → Except Nat Nat
  /-- The `FnMut(&PosSeed) -> PosTable` table generator with its mutable
  closure state made explicit. -/
  gen : G → PosSeed → PosTable × G

/-- The state of `SolutionsIterator` (`proving.rs` lines 165-185); borrowed
cryptographic handles live in `ProvingEnv`, the `FnMut` generator's closure
state is the `tg_state` field. -/
structure SolutionsIterator (G : Type) where
  public_key : Nat
  reward_address : Nat
  sector_id : Nat
  s_bucket : Nat
  sector_metadata : SectorMetadataChecksummed
  s_bucket_offsets : List Nat
  sector_contents_map : SectorContentsMap
  winning_chunks : List WinningChunk
  count : Nat
  best_solution_distance : Option Nat
  tg_state : G

/-- Outcome of processing one popped winning chunk inside `next()`:
either an iterator item (`Ok` solution or `Err`) or a Rust panic. -/
inductive StepOut where
  | item (r : Except ProvingError Solution)
  | panic (msg : String)

/-- The body of `SolutionsIterator::next` after the front chunk has been
popped (`proving.rs` lines 216-295), with the generator state threaded. -/
def processOne {G : Type} (env : ProvingEnv G) (st : SolutionsIterator G) (g : G)
    (wc : WinningChunk) : StepOut × G :=
  match env.gen g (derive_evaluation_seed st.sector_id wc.piece_offset
      st.sector_metadata.history_size) with
  | (pos_table, g1) =>
  match env.read_sector_record_chunks wc.piece_offset st.sector_metadata.pieces_in_sector
      st.s_bucket_offsets st.sector_contents_map pos_table with
  | .error e => (.item (.error (.RecordReadingError e)), g1)
  | .ok sector_record_chunks =>
    match sector_record_chunks.get? st.s_bucket with
    | none => (.panic "Within s-bucket range; qed", g1)
    | some none => (.panic "Winning chunk was plotted; qed", g1)
    | some (some chunk) =>
      match env.recover_poly sector_record_chunks with
      | .error e =>
          (.item (.error (.RecordReadingError
            (.FailedToErasureDecodeRecord wc.piece_offset e))), g1)
      | .ok source_chunks_polynomial =>
        match env.read_record_metadata wc.piece_offset st.sector_metadata.pieces_in_sector with
        | .error e => (.item (.error (.RecordReadingError e)), g1)
        | .ok record_metadata =>
          match pos_table.find_proof st.s_bucket with
          | none => (.panic "Quality exists for this s-bucket; qed", g1)
          | some proof_of_space =>
            match env.create_witness source_chunks_polynomial NUM_S_BUCKETS st.s_bucket with
            | .error e =>
                (.item (.error (.FailedToCreateChunkWitness wc.piece_offset wc.chunk_offset e)),
                  g1)
            | .ok chunk_witness =>
                (.item (.ok {
                  public_key := st.public_key
                  reward_address := st.reward_address
                  sector_index := st.sector_metadata.sector_index
                  history_size := st.sector_metadata.history_size
                  piece_offset := wc.piece_offset
                  record_commitment := record_metadata.commitment
                  record_witness := record_metadata.witness
                  chunk := chunk
                  chunk_witness := chunk_witness
                  proof_of_space := proof_of_space }), g1)

/-- Outcome of one `next()` call: `exhausted` models Rust's `None`,
`item r st` models `Some r` together with the mutated iterator state,
`panic` models an `expect` failure inside `next()`. -/
inductive NextOutcome (G : Type) where
  | exhausted
  | item (r : Except ProvingError Solution) (st : SolutionsIterator G)
  | panic (msg : String)

/-- `SolutionsIterator::next` (`proving.rs` lines 207-296): pop the front
winning chunk, decrement `count`, process the chunk. -/
def SolutionsIterator.next {G : Type} (env : ProvingEnv G) (st : SolutionsIterator G) :
    NextOutcome G :=
  match st.winning_chunks with
  | [] => .exhausted
  | wc :: rest =>
    match processOne env st st.tg_state wc with
    | (.panic msg, _) => .panic msg
    | (.item r, g1) =>
        .item r { st with winning_chunks := rest, count := st.count - 1, tg_state := g1 }

/-- `SolutionsIterator::size_hint` (`proving.rs` lines 298-300). -/
def SolutionsIterator.size_hint {G : Type} (st : SolutionsIterator G) : Nat × Option Nat :=
  (st.count, some st.count)

/-- `ExactSizeIterator::len` via its default implementation over `size_hint`. -/
def SolutionsIterator.len {G : Type} (st : SolutionsIterator G) : Nat :=
  st.count

/-- `ProvableSolutions::best_solution_distance` (`proving.rs` lines 311-313). -/
def SolutionsIterator.best {G : Type} (st : SolutionsIterator G) : Option Nat :=
  st.best_solution_distance

/-- The candidate filter in `SolutionsIterator::new` (`proving.rs` lines
357-370): `filter_map` over the candidates, keeping encoded ones paired with
their piece offset; `none` models the `expect` panic on an out-of-range
`chunk_offset`. -/
def winningChunksOf : List ChunkCandidate → List (Nat × Bool) → Option (List WinningChunk)
  | [], _ => some []
  | c :: cs, s_bucket_records =>
    match s_bucket_records.get? c.chunk_offset with
    | none => none
    | some pe =>
      match winningChunksOf cs s_bucket_records with
      | none => none
      | some rest =>
          if pe.2 then
            some ({ chunk_offset := c.chunk_offset, piece_offset := pe.1,
                    solution_distance := c.solution_distance } :: rest)
          else
            some rest

/-- The filtering law as the specification states it: retain exactly the
candidates whose s-bucket record at index `chunk_offset` has
`encoded = true`, each paired with that record's piece offset and the
candidate's solution distance, in input order. -/
def winningChunksSpec (cs : List ChunkCandidate) (s_bucket_records : List (Nat × Bool)) :
    List WinningChunk :=
  cs.filterMap fun c =>
    match s_bucket_records.get? c.chunk_offset with
    | some (p, true) =>
        some { chunk_offset := c.chunk_offset, piece_offset := p,
               solution_distance := c.solution_distance }
    | _ => none

/-- Outcome of `SolutionsIterator::new`: success, a typed construction error,
or a panic from one of its `expect`s. -/
inductive NewOutcome (G : Type) where
  | ok (st : SolutionsIterator G)
  | error (e : ProvingError)
  | panic (msg : String)

/-- `SolutionsIterator::new` (`proving.rs` lines 325-396).  The second
component counts `read_at` calls issued on the sector handle, so that
"no read is performed" is expressible. -/
def SolutionsIterator.new {G : Type} (env : ProvingEnv G)
    (public_key reward_address sector_id s_bucket : Nat)
    (sector_metadata : SectorMetadataChecksummed) (max_shards : Nat)
    (chunk_candidates : List ChunkCandidate) (g0 : G) : NewOutcome G × Nat :=
  if max_shards < NUM_S_BUCKETS then
    (.error .InvalidErasureCodingInstance, 0)
  else
    match env.sector_read_at (env.encoded_size sector_metadata.pieces_in_sector) 0 with
    | .error e => (.error (.Io e), 1)
    | .ok sector_contents_map_bytes =>
      match env.from_bytes sector_contents_map_bytes sector_metadata.pieces_in_sector with
      | .error e => (.error (.FailedToDecodeSectorContentsMap e), 1)
      | .ok sector_contents_map =>
        match sector_contents_map.iter_s_bucket_records s_bucket with
        | none => (.panic "S-bucket audit index is guaranteed to be in range; qed", 1)
        | some s_bucket_records =>
          match winningChunksOf chunk_candidates s_bucket_records with
          | none => (.panic "Wouldnt be a candidate if wasnt within s-bucket; qed", 1)
          | some winning_chunks =>
            (.ok {
              public_key := public_key
              reward_address := reward_address
              sector_id := sector_id
              s_bucket := s_bucket
              sector_metadata := sector_metadata
              s_bucket_offsets := sector_metadata.s_bucket_offsets_data
              sector_contents_map := sector_contents_map
              winning_chunks := winning_chunks
              count := winning_chunks.length
              best_solution_distance :=
                winning_chunks.head?.map fun w => w.solution_distance
              tg_state := g0 }, 1)

/-- State after one `next()` call (unchanged when exhausted; the state at a
panic is never observed because the Rust program unwinds). -/
def stepState {G : Type} (env : ProvingEnv G) (st : SolutionsIterator G) :
    SolutionsIterator G :=
  match st.next env with
  | .exhausted => st
  | .panic _ => st
  | .item _ st1 => st1

/-- State after `k` successive `next()` calls. -/
def stepN {G : Type} (env : ProvingEnv G) : Nat → SolutionsIterator G → SolutionsIterator G
  | 0, st => st
  | k + 1, st => stepN env k (stepState env st)

/-- Result of driving the iterator to the end: the yielded items, or the
items yielded before a panic. -/
inductive RunResult where
  | finished (items : List (Except ProvingError Solution))
  | panicked (items : List (Except ProvingError Solution)) (msg : String)

/-- Drive `next()` with the given fuel. -/
def runAux {G : Type} (env : ProvingEnv G) : Nat → SolutionsIterator G → RunResult
  | 0, _ => .finished []
  | fuel + 1, st =>
    match st.next env with
    | .exhausted => .finished []
    | .panic msg => .panicked [] msg
    | .item r st1 =>
      match runAux env fuel st1 with
      | .finished items => .finished (r :: items)
      | .panicked items msg => .panicked (r :: items) msg

/-- Drive the iterator to exhaustion (the queue length is exactly the number
of `next()` calls that can yield an item). -/
def runIter {G : Type} (env : ProvingEnv G) (st : SolutionsIterator G) : RunResult :=
  runAux env st.winning_chunks.length st

/-- Process the winning chunks in order, one item per chunk, threading the
generator state; `none` when some chunk panics. -/
def processItems {G : Type} (env : ProvingEnv G) (st : SolutionsIterator G) :
    G → List WinningChunk → Option (List (Except ProvingError Solution))
  | _, [] => some []
  | g, wc :: rest =>
    match processOne env st g wc with
    | (.panic _, _) => none
    | (.item r, g1) =>
      match processItems env st g1 rest with
      | none => none
      | some items => some (r :: items)

/-- Modelled from the spec: `read_sector_record_chunks` (`crate::reading`,
not among the sources).  Design document section 4.3: for each s-bucket
`b < NUM_S_BUCKETS` the result is `some chunk` exactly when the contents-map
row of `b` contains an entry referencing `piece_offset` (the chunk is read at
a computed offset and unmasked when encoded — the raw value is abstracted
here as `chunkBytes b`), and `none` when the slot belongs to another piece. -/
def readSectorRecordChunksSpec (chunkBytes : Nat → Nat) (piece_offset : Nat)
    (m : SectorContentsMap) : List (Option Nat) :=
  (List.range NUM_S_BUCKETS).map fun b =>
    match m.records.get? b with
    | none => none
    | some row =>
      match row.find? (fun pr => pr.1 == piece_offset) with
      | none => none
      | some _ => some (chunkBytes b)

/-- A concrete proof-of-space table for closed-instance checks. -/
def tableW : PosTable where
  find_quality := fun _ => some 4
  find_proof := fun _ => some 5

/-- A concrete proof-of-space table with no proof for any s-bucket. -/
def tableNoProof : PosTable where
  find_quality := fun _ => some 4
  find_proof := fun _ => none

/-- A concrete environment whose oracles all succeed. -/
def envW : ProvingEnv Unit where
  sector_read_at := fun _ _ => .ok [7]
  encoded_size := fun n => n
  from_bytes := fun _ _ => .ok { records := [[(0, true), (1, false)]] }
  read_sector_record_chunks := fun _ _ _ _ _ => .ok [some 9, some 10]
  recover_poly := fun _ => .ok 11
  read_record_metadata := fun _ _ => .ok { commitment := 12, witness := 13 }
  create_witness := fun _ _ _ => .ok 14
  gen := fun g _ => (tableW, g)

/-- `envW` with a failing erasure decoder. -/
def envWerr : ProvingEnv Unit :=
  { envW with recover_poly := fun _ => .error 3 }

/-- `envW` with a failing sector-contents-map decoder. -/
def envWdec : ProvingEnv Unit :=
  { envW with from_bytes := fun _ _ => .error { code := 2 } }

/-- `envW` with a chunk reader that returns `none` at index 0. -/
def envWnone : ProvingEnv Unit :=
  { envW with read_sector_record_chunks := fun _ _ _ _ _ => .ok [none] }

/-- `envW` with a generator producing a table that has no proofs. -/
def envWnoProof : ProvingEnv Unit :=
  { envW with gen := fun g _ => (tableNoProof, g) }

/-- `envW` with the chunk reader instantiated by the spec-modelled reader. -/
def envWspecRead : ProvingEnv Unit :=
  { envW with
    read_sector_record_chunks := fun p _ _ m _ =>
      .ok (readSectorRecordChunksSpec (fun _ => 9) p m) }

/-- Concrete sector metadata for closed-instance checks. -/
def mdW : SectorMetadataChecksummed where
  sector_index := 1
  pieces_in_sector := 2
  history_size := 6
  s_bucket_offsets_data := [0, 1]

/-- A concrete single-candidate list (in range, encoded). -/
def csW : List ChunkCandidate :=
  [{ chunk_offset := 0, solution_distance := 3 }]

/-- The winning chunk corresponding to `csW` under `envW`. -/
def wcW : WinningChunk :=
  { chunk_offset := 0, piece_offset := 0, solution_distance := 3 }

/-- A concrete iterator state for closed-instance checks. -/
def stW : SolutionsIterator Unit where
  public_key := 20
  reward_address := 21
  sector_id := 22
  s_bucket := 0
  sector_metadata := mdW
  s_bucket_offsets := [0, 1]
  sector_contents_map := { records := [[(0, true), (1, false)]] }
  winning_chunks := [wcW]
  count := 1
  best_solution_distance := some 3
  tg_state := ()

/-- The state `SolutionsIterator.new envW 20 21 22 0 mdW 65536 csW ()`
produces (checked by `rfl` in the closed-instance theorems). -/
def st0W : SolutionsIterator Unit := stW

/-- The solution `envW` yields for `wcW` from `stW`. -/
def solW : Solution where
  public_key := 20
  reward_address := 21
  sector_index := 1
  history_size := 6
  piece_offset := 0
  record_commitment := 12
  record_witness := 13
  chunk := 9
  chunk_witness := 14
  proof_of_space := 5

/-- The item list the iterator yields from `st0W` under `envW`. -/
def itemsW : List (Except ProvingError Solution) :=
  [Except.ok solW]

/-- A candidate whose offset is out of range for the two-entry row. -/
def csBad : List ChunkCandidate :=
  [{ chunk_offset := 5, solution_distance := 3 }]

/-- `envW` over generator state `Nat`, counting generator invocations: the
produced table is a pure function of the seed, the closure state is not. -/
def envN : ProvingEnv Nat where
  sector_read_at := fun _ _ => .ok [7]
  encoded_size := fun n => n
  from_bytes := fun _ _ => .ok { records := [[(0, true), (1, false)]] }
  read_sector_record_chunks := fun _ _ _ _ _ => .ok [some 9, some 10]
  recover_poly := fun _ => .ok 11
  read_record_metadata := fun _ _ => .ok { commitment := 12, witness := 13 }
  create_witness := fun _ _ _ => .ok 14
  gen := fun g _ => (tableW, g + 1)

/-- The state `SolutionsIterator.new envN 20 21 22 0 mdW 65536 csW g`
produces. -/
def stN (g : Nat) : SolutionsIterator Nat where
  public_key := 20
  reward_address := 21
  sector_id := 22
  s_bucket := 0
  sector_metadata := mdW
  s_bucket_offsets := [0, 1]
  sector_contents_map := { records := [[(0, true), (1, false)]] }
  winning_chunks := [wcW]
  count := 1
  best_solution_distance := some 3
  tg_state := g

/-- Equality of all the fields of the iterator state that `processOne`
reads. -/
def SameStatics {G : Type} (a b : SolutionsIterator G) : Prop :=
  a.public_key = b.public_key ∧ a.reward_address = b.reward_address ∧
  a.sector_id = b.sector_id ∧ a.s_bucket = b.s_bucket ∧
  a.sector_metadata = b.sector_metadata ∧ a.s_bucket_offsets = b.s_bucket_offsets ∧
  a.sector_contents_map = b.sector_contents_map

/- ### Helper lemmas -/

/-- `processOne` only reads the static fields of the iterator state. -/
theorem processOne_update {G : Type} (env : ProvingEnv G) (st : SolutionsIterator G)
    (w : List WinningChunk) (n : Nat) (g2 g : G) (wc : WinningChunk) :
    processOne env { st with winning_chunks := w, count := n, tg_state := g2 } g wc
      = processOne env st g wc := rfl

/-- The generator state produced by `processOne` does not depend on how far
processing got: the generator is invoked once, before any fallible step. -/
theorem processOne_snd {G : Type} (env : ProvingEnv G) (st : SolutionsIterator G) (g : G)
    (wc : WinningChunk) :
    (processOne env st g wc).2
      = (env.gen g (derive_evaluation_seed st.sector_id wc.piece_offset
          st.sector_metadata.history_size)).2 := by
  unfold processOne
  cases hg : env.gen g (derive_evaluation_seed st.sector_id wc.piece_offset
      st.sector_metadata.history_size) with
  | mk pt g1 =>
    dsimp only
    repeat' split
    all_goals rfl

/-- `processItems` only reads the static fields of the iterator state. -/
theorem processItems_update {G : Type} (env : ProvingEnv G) (st : SolutionsIterator G)
    (w : List WinningChunk) (n : Nat) (g2 : G) (l : List WinningChunk) :
    ∀ g : G, processItems env { st with winning_chunks := w, count := n, tg_state := g2 } g l
      = processItems env st g l := by
  induction l with
  | nil => intro g; rfl
  | cons wc rest ih =>
    intro g
    unfold processItems
    rw [processOne_update]
    cases hp : processOne env st g wc with
    | mk out g1 =>
      cases out with
      | panic m => rfl
      | item r =>
        dsimp only
        rw [ih g1]

/-- `processItems` yields exactly one item per winning chunk. -/
theorem processItems_length {G : Type} (env : ProvingEnv G) (st : SolutionsIterator G) :
    ∀ (l : List WinningChunk) (g : G) (items : List (Except ProvingError Solution)),
      processItems env st g l = some items → items.length = l.length := by
  intro l
  induction l with
  | nil =>
    intro g items h
    unfold processItems at h
    cases h
    rfl
  | cons wc rest ih =>
    intro g items h
    unfold processItems at h
    cases hp : processOne env st g wc with
    | mk out g1 =>
      rw [hp] at h
      cases out with
      | panic m => cases h
      | item r =>
        dsimp only at h
        cases hrest : processItems env st g1 rest with
        | none => rw [hrest] at h; cases h
        | some items2 =>
          rw [hrest] at h
          dsimp only at h
          cases h
          simp [ih g1 items2 hrest]

/-- `next` on a non-empty queue whose front chunk produces an item. -/
theorem next_cons {G : Type} (env : ProvingEnv G) (st : SolutionsIterator G)
    (wc : WinningChunk) (rest : List WinningChunk) (hwc : st.winning_chunks = wc :: rest)
    (r : Except ProvingError Solution) (g1 : G)
    (hp : processOne env st st.tg_state wc = (.item r, g1)) :
    st.next env = .item r
      { st with winning_chunks := rest, count := st.count - 1, tg_state := g1 } := by
  unfold SolutionsIterator.next
  rw [hwc]
  dsimp only
  rw [hp]

/-- Driving the iterator with exact fuel agrees with in-order per-chunk
processing when no chunk panics. -/
theorem runAux_eq_processItems {G : Type} (env : ProvingEnv G) :
    ∀ (chunks : List WinningChunk) (st : SolutionsIterator G),
      st.winning_chunks = chunks →
      ∀ items, processItems env st st.tg_state chunks = some items →
        runAux env chunks.length st = .finished items := by
  intro chunks
  induction chunks with
  | nil =>
    intro st hst items hp
    unfold processItems at hp
    cases hp
    rfl
  | cons wc rest ih =>
    intro st hst items hp
    unfold processItems at hp
    cases hproc : processOne env st st.tg_state wc with
    | mk out g1 =>
      rw [hproc] at hp
      cases out with
      | panic m => cases hp
      | item r =>
        dsimp only at hp
        cases hrest : processItems env st g1 rest with
        | none => rw [hrest] at hp; cases hp
        | some items2 =>
          rw [hrest] at hp
          dsimp only at hp
          cases hp
          have hnext := next_cons env st wc rest hst r g1 hproc
          have hpi : processItems env
              { st with winning_chunks := rest, count := st.count - 1, tg_state := g1 }
              g1 rest = some items2 :=
            (processItems_update env st rest (st.count - 1) g1 rest g1).trans hrest
          have hrun := ih
            { st with winning_chunks := rest, count := st.count - 1, tg_state := g1 }
            rfl items2 hpi
          show runAux env (rest.length + 1) st = _
          unfold runAux
          rw [hnext]
          dsimp only
          rw [hrun]

/-- Elimination principle for a successful `SolutionsIterator.new`. -/
theorem new_ok_elim {G : Type} (env : ProvingEnv G) (pk ra sid sb : Nat)
    (md : SectorMetadataChecksummed) (ms : Nat) (cs : List ChunkCandidate) (g0 : G)
    (st0 : SolutionsIterator G)
    (h : (SolutionsIterator.new env pk ra sid sb md ms cs g0).1 = .ok st0) :
    ∃ bytes scm srecords wcs,
      ¬ ms < NUM_S_BUCKETS ∧
      env.sector_read_at (env.encoded_size md.pieces_in_sector) 0 = .ok bytes ∧
      env.from_bytes bytes md.pieces_in_sector = .ok scm ∧
      scm.records.get? sb = some srecords ∧
      winningChunksOf cs srecords = some wcs ∧
      st0 = { public_key := pk, reward_address := ra, sector_id := sid, s_bucket := sb,
              sector_metadata := md, s_bucket_offsets := md.s_bucket_offsets_data,
              sector_contents_map := scm, winning_chunks := wcs, count := wcs.length,
              best_solution_distance := wcs.head?.map fun w => w.solution_distance,
              tg_state := g0 } := by
  unfold SolutionsIterator.new at h
  split at h
  · cases h
  · rename_i hms
    cases hread : env.sector_read_at (env.encoded_size md.pieces_in_sector) 0 with
    | error e => rw [hread] at h; cases h
    | ok bytes =>
      rw [hread] at h
      dsimp only at h
      cases hdec : env.from_bytes bytes md.pieces_in_sector with
      | error e => rw [hdec] at h; cases h
      | ok scm =>
        rw [hdec] at h
        dsimp only at h
        cases hrow : scm.iter_s_bucket_records sb with
        | none => rw [hrow] at h; cases h
        | some srecords =>
          rw [hrow] at h
          dsimp only at h
          cases hwcs : winningChunksOf cs srecords with
          | none => rw [hwcs] at h; cases h
          | some wcs =>
            rw [hwcs] at h
            dsimp only at h
            cases h
            exact ⟨bytes, scm, srecords, wcs, hms, rfl, hdec, hrow, hwcs, rfl⟩

/-- When every candidate is in range, the filter agrees with the
specification filter (no `expect` fires). -/
theorem winningChunksOf_eq_spec (cs : List ChunkCandidate) (rs : List (Nat × Bool))
    (h : ∀ c ∈ cs, c.chunk_offset < rs.length) :
    winningChunksOf cs rs = some (winningChunksSpec cs rs) := by
  induction cs with
  | nil => rfl
  | cons c cs ih =>
    have hc : c.chunk_offset < rs.length := h c (List.mem_cons_self c cs)
    have hrest := ih fun x hx => h x (List.mem_cons_of_mem c hx)
    obtain ⟨pe, hpe⟩ : ∃ pe, rs.get? c.chunk_offset = some pe :=
      ⟨rs.get ⟨c.chunk_offset, hc⟩, List.get?_eq_get hc⟩
    unfold winningChunksOf
    rw [hpe, hrest]
    unfold winningChunksSpec
    rw [List.filterMap_cons]
    dsimp only
    rw [hpe]
    cases pe with
    | mk p enc => cases enc <;> rfl

/-- An out-of-range candidate makes the filter hit its `expect` (panic). -/
theorem winningChunksOf_oob (cs : List ChunkCandidate) (rs : List (Nat × Bool))
    (h : ∃ c ∈ cs, rs.length ≤ c.chunk_offset) :
    winningChunksOf cs rs = none := by
  induction cs with
  | nil => obtain ⟨c, hc, _⟩ := h; cases hc
  | cons c cs ih =>
    obtain ⟨d, hd, hlen⟩ := h
    rcases List.mem_cons.mp hd with rfl | hd2
    · have hnone : rs.get? d.chunk_offset = none := List.get?_eq_none.mpr hlen
      unfold winningChunksOf
      rw [hnone]
    · have hnone := ih ⟨d, hd2, hlen⟩
      unfold winningChunksOf
      rw [hnone]
      cases rs.get? c.chunk_offset <;> rfl

/-- `stepState` after a yielded item: pop, decrement, thread the generator. -/
theorem stepState_item {G : Type} (env : ProvingEnv G) (st : SolutionsIterator G)
    (wc : WinningChunk) (rest : List WinningChunk) (r : Except ProvingError Solution) (g1 : G)
    (hwc : st.winning_chunks = wc :: rest)
    (hp : processOne env st st.tg_state wc = (.item r, g1)) :
    stepState env st
      = { st with winning_chunks := rest, count := st.count - 1, tg_state := g1 } := by
  unfold stepState
  rw [next_cons env st wc rest hwc r g1 hp]

/-- One `next()` call never changes `best_solution_distance`. -/
theorem stepState_best {G : Type} (env : ProvingEnv G) (st : SolutionsIterator G) :
    (stepState env st).best_solution_distance = st.best_solution_distance := by
  unfold stepState
  cases hn : st.next env with
  | exhausted => rfl
  | panic m => rfl
  | item r st1 =>
    unfold SolutionsIterator.next at hn
    cases hwc : st.winning_chunks with
    | nil => rw [hwc] at hn; cases hn
    | cons wc rest =>
      rw [hwc] at hn
      dsimp only at hn
      cases hp : processOne env st st.tg_state wc with
      | mk out g1 =>
        rw [hp] at hn
        cases out with
        | panic m => cases hn
        | item r2 =>
          dsimp only at hn
          cases hn
          rfl

/-- No sequence of `next()` calls changes `best_solution_distance`. -/
theorem stepN_best {G : Type} (env : ProvingEnv G) :
    ∀ (k : Nat) (st : SolutionsIterator G),
      (stepN env k st).best_solution_distance = st.best_solution_distance := by
  intro k
  induction k with
  | zero => intro st; rfl
  | succ k ih =>
    intro st
    show (stepN env k (stepState env st)).best_solution_distance = _
    rw [ih (stepState env st), stepState_best]

/-- Count and queue-length bookkeeping over `k` item-yielding `next()` calls. -/
theorem stepN_counts {G : Type} (env : ProvingEnv G) :
    ∀ (k : Nat) (st : SolutionsIterator G),
      st.count = st.winning_chunks.length →
      (∀ j, j < k → ∃ r st1, (stepN env j st).next env = .item r st1) →
      (stepN env k st).count = st.count - k ∧
      (stepN env k st).winning_chunks.length = st.winning_chunks.length - k ∧
      (stepN env k st).count = (stepN env k st).winning_chunks.length ∧
      k ≤ st.count := by
  intro k
  induction k with
  | zero =>
    intro st hinv _
    exact ⟨rfl, rfl, hinv, Nat.zero_le _⟩
  | succ k ih =>
    intro st hinv hitem
    obtain ⟨r, st1, hnext⟩ := hitem 0 (Nat.succ_pos k)
    cases hwc : st.winning_chunks with
    | nil =>
      unfold SolutionsIterator.next at hnext
      rw [show stepN env 0 st = st from rfl, hwc] at hnext
      cases hnext
    | cons wc rest =>
      have hlen : st.count = rest.length + 1 := by rw [hinv, hwc]; rfl
      cases hp : processOne env st st.tg_state wc with
      | mk out g1 =>
        cases out with
        | panic m =>
          rw [show stepN env 0 st = st from rfl] at hnext
          unfold SolutionsIterator.next at hnext
          rw [hwc] at hnext
          dsimp only at hnext
          rw [hp] at hnext
          cases hnext
        | item r2 =>
          have hstep := stepState_item env st wc rest r2 g1 hwc hp
          have hinv1 : (stepState env st).count
              = (stepState env st).winning_chunks.length := by
            rw [hstep]
            show st.count - 1 = rest.length
            omega
          have hitem1 : ∀ j, j < k →
              ∃ r st1, (stepN env j (stepState env st)).next env = .item r st1 := by
            intro j hj
            exact hitem (j + 1) (Nat.succ_lt_succ hj)
          obtain ⟨h1, h2, h3, h4⟩ := ih (stepState env st) hinv1 hitem1
          have hc1 : (stepState env st).count = st.count - 1 := by rw [hstep]
          have hl1 : (stepState env st).winning_chunks.length
              = st.winning_chunks.length - 1 := by
            rw [hstep, hwc]
            show rest.length = (wc :: rest).length - 1
            simp
          refine ⟨?_, ?_, h3, ?_⟩
          · show (stepN env k (stepState env st)).count = st.count - (k + 1)
            omega
          · show (stepN env k (stepState env st)).winning_chunks.length
              = (wc :: rest).length - (k + 1)
            have hlc : (wc :: rest).length = rest.length + 1 := rfl
            omega
          · omega

/-- When the generator is a pure function of the seed, the first component of
`processOne` does not depend on the generator state. -/
theorem processOne_fst_pure {G : Type} (env : ProvingEnv G)
    (hpure : ∀ (ga gb : G) (seed : PosSeed), (env.gen ga seed).1 = (env.gen gb seed).1)
    (st : SolutionsIterator G) (g g2 : G) (wc : WinningChunk) :
    (processOne env st g wc).1 = (processOne env st g2 wc).1 := by
  unfold processOne
  cases hg : env.gen g (derive_evaluation_seed st.sector_id wc.piece_offset
      st.sector_metadata.history_size) with
  | mk pt g1 =>
    cases hg2 : env.gen g2 (derive_evaluation_seed st.sector_id wc.piece_offset
        st.sector_metadata.history_size) with
    | mk pt2 g12 =>
      have hpt : pt = pt2 := by
        have h := hpure g g2 (derive_evaluation_seed st.sector_id wc.piece_offset
          st.sector_metadata.history_size)
        rw [hg, hg2] at h
        exact h
      subst hpt
      dsimp only
      repeat' split
      all_goals rfl

/-- With a pure generator, two iterators over the same winning chunks and the
same static data yield the same run, whatever their generator states. -/
theorem runAux_pure {G : Type} (env : ProvingEnv G)
    (hpure : ∀ (ga gb : G) (seed : PosSeed), (env.gen ga seed).1 = (env.gen gb seed).1) :
    ∀ (fuel : Nat) (st1 st2 : SolutionsIterator G), SameStatics st1 st2 →
      st1.winning_chunks = st2.winning_chunks →
      runAux env fuel st1 = runAux env fuel st2 := by
  intro fuel
  induction fuel with
  | zero => intro st1 st2 _ _; rfl
  | succ fuel ih =>
    intro st1 st2 hs hw
    obtain ⟨pk1, ra1, sid1, sb1, md1, so1, sm1, wcs1, n1, bd1, g1⟩ := st1
    obtain ⟨pk2, ra2, sid2, sb2, md2, so2, sm2, wcs2, n2, bd2, g2⟩ := st2
    obtain ⟨h1, h2, h3, h4, h5, h6, h7⟩ := hs
    dsimp only at h1 h2 h3 h4 h5 h6 h7 hw
    subst h1; subst h2; subst h3; subst h4; subst h5; subst h6; subst h7; subst hw
    cases hwc : wcs1 with
    | nil => rfl
    | cons wc rest =>
      subst hwc
      unfold runAux SolutionsIterator.next
      dsimp only
      cases hp : processOne env
          ⟨pk1, ra1, sid1, sb1, md1, so1, sm1, wc :: rest, n1, bd1, g1⟩ g1 wc with
      | mk out gg1 =>
        cases hp2 : processOne env
            ⟨pk1, ra1, sid1, sb1, md1, so1, sm1, wc :: rest, n2, bd2, g2⟩ g2 wc with
        | mk out2 gg2 =>
          have hout : out = out2 := by
            have h := processOne_fst_pure env hpure
              ⟨pk1, ra1, sid1, sb1, md1, so1, sm1, wc :: rest, n1, bd1, g1⟩ g1 g2 wc
            rw [hp] at h
            rw [show processOne env
              ⟨pk1, ra1, sid1, sb1, md1, so1, sm1, wc :: rest, n1, bd1, g1⟩ g2 wc
              = processOne env
              ⟨pk1, ra1, sid1, sb1, md1, so1, sm1, wc :: rest, n2, bd2, g2⟩ g2 wc from rfl,
              hp2] at h
            exact h
          subst hout
          cases out with
          | panic m => rfl
          | item r =>
            dsimp only
            rw [ih ⟨pk1, ra1, sid1, sb1, md1, so1, sm1, rest, n1 - 1, bd1, gg1⟩
              ⟨pk1, ra1, sid1, sb1, md1, so1, sm1, rest, n2 - 1, bd2, gg2⟩
              ⟨rfl, rfl, rfl, rfl, rfl, rfl, rfl⟩ rfl]

/-- If the filter finished without panicking, its result is the
specification filter's result. -/
theorem winningChunksOf_some_spec :
    ∀ (cs : List ChunkCandidate) (rs : List (Nat × Bool)) (wcs : List WinningChunk),
      winningChunksOf cs rs = some wcs → wcs = winningChunksSpec cs rs := by
  intro cs
  induction cs with
  | nil =>
    intro rs wcs h
    exact (Option.some.inj h).symm
  | cons c cs ih =>
    intro rs wcs h
    unfold winningChunksOf at h
    cases hpe : rs.get? c.chunk_offset with
    | none => rw [hpe] at h; cases h
    | some pe =>
      rw [hpe] at h
      dsimp only at h
      cases hrec : winningChunksOf cs rs with
      | none => rw [hrec] at h; cases h
      | some rest =>
        rw [hrec] at h
        dsimp only at h
        have hrest := ih rs rest hrec
        unfold winningChunksSpec
        rw [List.filterMap_cons]
        try dsimp only
        rw [hpe]
        cases pe with
        | mk p enc =>
          cases enc
          · have h2 : some rest = some wcs := h
            rw [← Option.some.inj h2, hrest]
            rfl
          · have h2 : some ({ chunk_offset := c.chunk_offset, piece_offset := p, solution_distance := c.solution_distance } :: rest) = some wcs := h
            rw [← Option.some.inj h2, hrest]
            rfl

/-- `next` on a non-empty queue whose front chunk panics. -/
theorem next_cons_panic {G : Type} (env : ProvingEnv G) (st : SolutionsIterator G)
    (wc : WinningChunk) (rest : List WinningChunk) (hwc : st.winning_chunks = wc :: rest)
    (m : String) (g1 : G)
    (hp : processOne env st st.tg_state wc = (.panic m, g1)) :
    st.next env = .panic m := by
  unfold SolutionsIterator.next
  rw [hwc]
  dsimp only
  rw [hp]

/-- Indexing the spec-modelled chunk reader below `NUM_S_BUCKETS`. -/
theorem readSpec_get? (chunkBytes : Nat → Nat) (p : Nat) (m : SectorContentsMap)
    (b : Nat) (hb : b < NUM_S_BUCKETS) :
    (readSectorRecordChunksSpec chunkBytes p m).get? b
      = some (match m.records.get? b with
        | none => none
        | some row =>
          match row.find? (fun pr => pr.1 == p) with
          | none => none
          | some _ => some (chunkBytes b)) := by
  unfold readSectorRecordChunksSpec
  rw [List.get?_map, List.get?_range hb]
  rfl

/- ### Claims -/

/-- Claim C5: constructing with an erasure-coding instance whose `max_shards`
is below `NUM_S_BUCKETS` fails with `InvalidErasureCodingInstance`, and no
read is performed on the sector handle (the read count is 0). -/
theorem c5_invalid_erasure_coding {G : Type} (env : ProvingEnv G)
    (pk ra sid sb : Nat) (md : SectorMetadataChecksummed) (ms : Nat)
    (cs : List ChunkCandidate) (g0 : G) (h : ms < NUM_S_BUCKETS) :
    SolutionsIterator.new env pk ra sid sb md ms cs g0
      = (.error .InvalidErasureCodingInstance, 0) := by
  unfold SolutionsIterator.new
  rw [if_pos h]

/-- Closed instance of claim C5 at `max_shards = NUM_S_BUCKETS − 1`. -/
theorem c5_witness :
    65535 < NUM_S_BUCKETS ∧
    SolutionsIterator.new envW 20 21 22 0 mdW 65535 csW ()
      = (.error .InvalidErasureCodingInstance, 0) :=
  ⟨by decide, c5_invalid_erasure_coding envW 20 21 22 0 mdW 65535 csW () (by decide)⟩

/-- Claim C6: when the sector-contents-map prefix decodes with an error, the
constructor returns `FailedToDecodeSectorContentsMap` and produces no
iterator value: a terminal construction failure, not a per-item error. -/
theorem c6_decode_failure {G : Type} (env : ProvingEnv G)
    (pk ra sid sb : Nat) (md : SectorMetadataChecksummed) (ms : Nat)
    (cs : List ChunkCandidate) (g0 : G) (hms : ¬ ms < NUM_S_BUCKETS)
    (bytes : List Nat)
    (hread : env.sector_read_at (env.encoded_size md.pieces_in_sector) 0 = .ok bytes)
    (e : SectorContentsMapFromBytesError)
    (hdec : env.from_bytes bytes md.pieces_in_sector = .error e) :
    SolutionsIterator.new env pk ra sid sb md ms cs g0
      = (.error (.FailedToDecodeSectorContentsMap e), 1) := by
  unfold SolutionsIterator.new
  rw [if_neg hms, hread]
  dsimp only
  rw [hdec]

/-- Closed instance of claim C6 with a failing contents-map decoder. -/
theorem c6_witness :
    SolutionsIterator.new envWdec 20 21 22 0 mdW 65536 csW ()
      = (.error (.FailedToDecodeSectorContentsMap { code := 2 }), 1) :=
  c6_decode_failure envWdec 20 21 22 0 mdW 65536 csW () (by decide) [7] rfl
    { code := 2 } rfl

/-- Claim C4: `best_solution_distance` equals the first retained winning
chunk's `solution_distance` (hence `none` when nothing survives filtering, in
particular for an empty candidate list), is fixed at construction, and is
unchanged by any sequence of `next()` calls in any environment. -/
theorem c4_best_distance {G : Type} (env : ProvingEnv G)
    (pk ra sid sb : Nat) (md : SectorMetadataChecksummed) (ms : Nat)
    (cs : List ChunkCandidate) (g0 : G) (st0 : SolutionsIterator G)
    (hnew : (SolutionsIterator.new env pk ra sid sb md ms cs g0).1 = .ok st0) :
    st0.best_solution_distance
        = st0.winning_chunks.head?.map (fun w => w.solution_distance) ∧
    (st0.winning_chunks = [] → st0.best_solution_distance = none) ∧
    (cs = [] → st0.best_solution_distance = none) ∧
    ∀ (env2 : ProvingEnv G) (k : Nat),
      (stepN env2 k st0).best_solution_distance = st0.best_solution_distance := by
  obtain ⟨bytes, scm, srecords, wcs, hms, hread, hdec, hrow, hwcs, hst⟩ :=
    new_ok_elim env pk ra sid sb md ms cs g0 st0 hnew
  subst hst
  refine ⟨rfl, ?_, ?_, ?_⟩
  · intro hnil
    have h0 : wcs = [] := hnil
    subst h0
    rfl
  · intro hcs
    subst hcs
    have h0 : wcs = [] := by
      have hz : winningChunksOf [] srecords = some [] := rfl
      rw [hz] at hwcs
      exact (Option.some.inj hwcs).symm
    subst h0
    rfl
  · intro env2 k
    exact stepN_best env2 k _

/-- Closed instance of claim C4. -/
theorem c4_witness :
    st0W.best_solution_distance
        = st0W.winning_chunks.head?.map (fun w => w.solution_distance) ∧
    ∀ k, (stepN envW k st0W).best_solution_distance = st0W.best_solution_distance := by
  have h := c4_best_distance envW 20 21 22 0 mdW 65536 csW () st0W rfl
  exact ⟨h.1, fun k => h.2.2.2 envW k⟩

/-- Claim C3: on a freshly constructed iterator whose queue retains `N`
winning chunks, after `k` `next()` calls that each return an item (`Ok` or
`Err`), `len()` equals `N − k` and `size_hint()` equals
`(N − k, some (N − k))`; `len()` always equals the winning-chunks queue
length. -/
theorem c3_length_law {G : Type} (env : ProvingEnv G)
    (pk ra sid sb : Nat) (md : SectorMetadataChecksummed) (ms : Nat)
    (cs : List ChunkCandidate) (g0 : G) (st0 : SolutionsIterator G)
    (hnew : (SolutionsIterator.new env pk ra sid sb md ms cs g0).1 = .ok st0)
    (k : Nat)
    (hitem : ∀ j, j < k → ∃ r st1, (stepN env j st0).next env = .item r st1) :
    (stepN env k st0).len = st0.winning_chunks.length - k ∧
    (stepN env k st0).size_hint
      = (st0.winning_chunks.length - k, some (st0.winning_chunks.length - k)) ∧
    st0.len = st0.winning_chunks.length ∧
    (stepN env k st0).len = (stepN env k st0).winning_chunks.length ∧
    k ≤ st0.winning_chunks.length := by
  obtain ⟨bytes, scm, srecords, wcs, hms, hread, hdec, hrow, hwcs, hst⟩ :=
    new_ok_elim env pk ra sid sb md ms cs g0 st0 hnew
  have hinv : st0.count = st0.winning_chunks.length := by rw [hst]
  obtain ⟨h1, h2, h3, h4⟩ := stepN_counts env k st0 hinv hitem
  refine ⟨?_, ?_, hinv, h3, ?_⟩
  · show (stepN env k st0).count = st0.winning_chunks.length - k
    rw [h1, hinv]
  · show ((stepN env k st0).count, some ((stepN env k st0).count))
        = (st0.winning_chunks.length - k, some (st0.winning_chunks.length - k))
    rw [h1, hinv]
  · rw [← hinv]
    exact h4

/-- Closed instance of claim C3 with `N = 1`, `k = 1`. -/
theorem c3_witness :
    (stepN envW 1 st0W).len = st0W.winning_chunks.length - 1 ∧
    (stepN envW 1 st0W).size_hint
      = (st0W.winning_chunks.length - 1, some (st0W.winning_chunks.length - 1)) ∧
    st0W.len = st0W.winning_chunks.length ∧
    (stepN envW 1 st0W).len = (stepN envW 1 st0W).winning_chunks.length ∧
    1 ≤ st0W.winning_chunks.length := by
  refine c3_length_law envW 20 21 22 0 mdW 65536 csW () st0W rfl 1 ?_
  intro j hj
  have hj0 : j = 0 := by omega
  subst hj0
  exact ⟨.ok solW, _, rfl⟩

/-- Claim C1: construction retains exactly the candidates whose s-bucket
record at index `chunk_offset` has `encoded = true`, each paired with that
record's piece offset and the candidate's solution distance, in input order;
driving the iterator yields exactly one item per retained candidate, namely
the in-order per-candidate processing results, with no reordering on error. -/
theorem c1_filtering_and_order {G : Type} (env : ProvingEnv G)
    (pk ra sid sb : Nat) (md : SectorMetadataChecksummed) (ms : Nat)
    (cs : List ChunkCandidate) (g0 : G) (st0 : SolutionsIterator G)
    (bytes : List Nat) (scm : SectorContentsMap) (srecords : List (Nat × Bool))
    (hread : env.sector_read_at (env.encoded_size md.pieces_in_sector) 0 = .ok bytes)
    (hdec : env.from_bytes bytes md.pieces_in_sector = .ok scm)
    (hrow : scm.records.get? sb = some srecords)
    (hnew : (SolutionsIterator.new env pk ra sid sb md ms cs g0).1 = .ok st0)
    (items : List (Except ProvingError Solution))
    (hitems : processItems env st0 st0.tg_state st0.winning_chunks = some items) :
    st0.winning_chunks = winningChunksSpec cs srecords ∧
    runIter env st0 = .finished items ∧
    items.length = st0.winning_chunks.length := by
  obtain ⟨bytes2, scm2, srecords2, wcs, hms, hread2, hdec2, hrow2, hwcs, hst⟩ :=
    new_ok_elim env pk ra sid sb md ms cs g0 st0 hnew
  have hb : bytes = bytes2 := Except.ok.inj (hread.symm.trans hread2)
  subst hb
  have hs : scm = scm2 := Except.ok.inj (hdec.symm.trans hdec2)
  subst hs
  have hr : srecords = srecords2 := Option.some.inj (hrow.symm.trans hrow2)
  subst hr
  refine ⟨?_, ?_, ?_⟩
  · rw [hst]
    exact winningChunksOf_some_spec cs srecords wcs hwcs
  · exact runAux_eq_processItems env st0.winning_chunks st0 rfl items hitems
  · exact processItems_length env st0 st0.winning_chunks st0.tg_state items hitems

/-- Closed instance of claim C1. -/
theorem c1_witness :
    st0W.winning_chunks = winningChunksSpec csW [(0, true), (1, false)] ∧
    runIter envW st0W = .finished itemsW ∧
    itemsW.length = st0W.winning_chunks.length :=
  c1_filtering_and_order envW 20 21 22 0 mdW 65536 csW () st0W [7]
    { records := [[(0, true), (1, false)]] } [(0, true), (1, false)]
    rfl rfl rfl rfl itemsW rfl

/-- Claim C2: a per-candidate failure inside `next()` yields `Some(Err(..))`
rather than ending or poisoning the iteration; the state change is exactly
popping the candidate, decrementing the count, and the generator invocation
that happens identically on the success path (same resulting generator state
whatever the item outcome), so a subsequent `next()` starts from the same
state it would have otherwise. -/
theorem c2_error_items {G : Type} (env : ProvingEnv G) (st : SolutionsIterator G)
    (wc : WinningChunk) (rest : List WinningChunk)
    (hwc : st.winning_chunks = wc :: rest)
    (e : ProvingError) (g1 : G)
    (hp : processOne env st st.tg_state wc = (.item (.error e), g1)) :
    st.next env = .item (.error e)
      { st with winning_chunks := rest, count := st.count - 1, tg_state := g1 } ∧
    g1 = (env.gen st.tg_state (derive_evaluation_seed st.sector_id wc.piece_offset
      st.sector_metadata.history_size)).2 ∧
    ∀ (r2 : Except ProvingError Solution) (g2 : G),
      processOne env st st.tg_state wc = (.item r2, g2) → g2 = g1 := by
  refine ⟨next_cons env st wc rest hwc (.error e) g1 hp, ?_, ?_⟩
  · have h := processOne_snd env st st.tg_state wc
    rw [hp] at h
    exact h
  · intro r2 g2 hp2
    rw [hp] at hp2
    injection hp2 with h1 h2
    exact h2.symm

/-- Closed instance of claim C2 with a failing erasure decoder. -/
theorem c2_witness :
    stW.next envWerr = .item (.error (.RecordReadingError
        (.FailedToErasureDecodeRecord 0 3)))
      { stW with winning_chunks := [], count := stW.count - 1, tg_state := () } ∧
    (() : Unit) = (envWerr.gen stW.tg_state (derive_evaluation_seed stW.sector_id
      wcW.piece_offset stW.sector_metadata.history_size)).2 ∧
    ∀ (r2 : Except ProvingError Solution) (g2 : Unit),
      processOne envWerr stW stW.tg_state wcW = (.item r2, g2) → g2 = () :=
  c2_error_items envWerr stW wcW [] rfl
    (.RecordReadingError (.FailedToErasureDecodeRecord 0 3)) () rfl

/-- Claim C7: an `Ok` solution from `next()` is assembled exactly from: the
constructor inputs (`public_key`, `reward_address`), the sector metadata
(`sector_index`, `history_size`), the winning chunk's `piece_offset`, the
record metadata read for that piece (commitment and witness verbatim), the
`s_bucket` entry of the read record chunks, the KZG witness of the recovered
polynomial at index `s_bucket` over the `NUM_S_BUCKETS` domain, and
`find_proof(s_bucket)` of the table generated from
`derive_evaluation_seed(sector_id, piece_offset, history_size)`. -/
theorem c7_solution_fields {G : Type} (env : ProvingEnv G) (st : SolutionsIterator G)
    (g g1 : G) (wc : WinningChunk) (sol : Solution)
    (hp : processOne env st g wc = (.item (.ok sol), g1)) :
    sol.public_key = st.public_key ∧
    sol.reward_address = st.reward_address ∧
    sol.sector_index = st.sector_metadata.sector_index ∧
    sol.history_size = st.sector_metadata.history_size ∧
    sol.piece_offset = wc.piece_offset ∧
    (∃ chunks,
      env.read_sector_record_chunks wc.piece_offset st.sector_metadata.pieces_in_sector
          st.s_bucket_offsets st.sector_contents_map
          (env.gen g (derive_evaluation_seed st.sector_id wc.piece_offset
            st.sector_metadata.history_size)).1 = .ok chunks ∧
      chunks.get? st.s_bucket = some (some sol.chunk) ∧
      ∃ poly, env.recover_poly chunks = .ok poly ∧
        env.create_witness poly NUM_S_BUCKETS st.s_bucket = .ok sol.chunk_witness) ∧
    (∃ rmd, env.read_record_metadata wc.piece_offset st.sector_metadata.pieces_in_sector
        = .ok rmd ∧
      sol.record_commitment = rmd.commitment ∧ sol.record_witness = rmd.witness) ∧
    (env.gen g (derive_evaluation_seed st.sector_id wc.piece_offset
      st.sector_metadata.history_size)).1.find_proof st.s_bucket
        = some sol.proof_of_space := by
  unfold processOne at hp
  cases hg : env.gen g (derive_evaluation_seed st.sector_id wc.piece_offset
      st.sector_metadata.history_size) with
  | mk pt gg =>
    rw [hg] at hp
    dsimp only at hp
    dsimp only
    cases hchunks : env.read_sector_record_chunks wc.piece_offset
        st.sector_metadata.pieces_in_sector st.s_bucket_offsets st.sector_contents_map pt with
    | error e => rw [hchunks] at hp; cases hp
    | ok chunks =>
      rw [hchunks] at hp
      dsimp only at hp
      cases hget : chunks.get? st.s_bucket with
      | none => rw [hget] at hp; cases hp
      | some oc =>
        rw [hget] at hp
        cases oc with
        | none => dsimp only at hp; cases hp
        | some ch =>
          dsimp only at hp
          cases hrec : env.recover_poly chunks with
          | error e => rw [hrec] at hp; cases hp
          | ok poly =>
            rw [hrec] at hp
            dsimp only at hp
            cases hmd : env.read_record_metadata wc.piece_offset
                st.sector_metadata.pieces_in_sector with
            | error e => rw [hmd] at hp; cases hp
            | ok rmd =>
              rw [hmd] at hp
              dsimp only at hp
              cases hfp : pt.find_proof st.s_bucket with
              | none => rw [hfp] at hp; cases hp
              | some pos =>
                rw [hfp] at hp
                dsimp only at hp
                cases hcw : env.create_witness poly NUM_S_BUCKETS st.s_bucket with
                | error e => rw [hcw] at hp; cases hp
                | ok w =>
                  rw [hcw] at hp
                  dsimp only at hp
                  injection hp with hp1 hp2
                  injection hp1 with hp1
                  injection hp1 with hp1
                  subst hp1
                  exact ⟨rfl, rfl, rfl, rfl, rfl,
                    ⟨chunks, rfl, hget, poly, hrec, hcw⟩,
                    ⟨rmd, rfl, rfl, rfl⟩, rfl⟩

/-- Closed instance of claim C7. -/
theorem c7_witness :
    solW.public_key = stW.public_key ∧
    solW.reward_address = stW.reward_address ∧
    solW.sector_index = stW.sector_metadata.sector_index ∧
    solW.history_size = stW.sector_metadata.history_size ∧
    solW.piece_offset = wcW.piece_offset ∧
    (∃ chunks,
      envW.read_sector_record_chunks wcW.piece_offset stW.sector_metadata.pieces_in_sector
          stW.s_bucket_offsets stW.sector_contents_map
          (envW.gen () (derive_evaluation_seed stW.sector_id wcW.piece_offset
            stW.sector_metadata.history_size)).1 = .ok chunks ∧
      chunks.get? stW.s_bucket = some (some solW.chunk) ∧
      ∃ poly, envW.recover_poly chunks = .ok poly ∧
        envW.create_witness poly NUM_S_BUCKETS stW.s_bucket = .ok solW.chunk_witness) ∧
    (∃ rmd, envW.read_record_metadata wcW.piece_offset stW.sector_metadata.pieces_in_sector
        = .ok rmd ∧
      solW.record_commitment = rmd.commitment ∧ solW.record_witness = rmd.witness) ∧
    (envW.gen () (derive_evaluation_seed stW.sector_id wcW.piece_offset
      stW.sector_metadata.history_size)).1.find_proof stW.s_bucket
        = some solW.proof_of_space :=
  c7_solution_fields envW stW () () wcW solW rfl

/-- Claim C8: with a table generator that is a pure function of the seed
(purity is a hypothesis here — the interface only takes an `FnMut`), two
iterators constructed from the same inputs yield identical item sequences,
whatever the generator closure states. -/
theorem c8_determinism {G : Type} (env : ProvingEnv G)
    (hpure : ∀ (ga gb : G) (seed : PosSeed), (env.gen ga seed).1 = (env.gen gb seed).1)
    (pk ra sid sb : Nat) (md : SectorMetadataChecksummed) (ms : Nat)
    (cs : List ChunkCandidate) (g0 g0p : G) (st1 st2 : SolutionsIterator G)
    (h1 : (SolutionsIterator.new env pk ra sid sb md ms cs g0).1 = .ok st1)
    (h2 : (SolutionsIterator.new env pk ra sid sb md ms cs g0p).1 = .ok st2) :
    runIter env st1 = runIter env st2 := by
  obtain ⟨b1, s1, r1, w1, hmsA, hrA, hdA, hrwA, hwA, hstA⟩ :=
    new_ok_elim env pk ra sid sb md ms cs g0 st1 h1
  obtain ⟨b2, s2, r2, w2, hmsB, hrB, hdB, hrwB, hwB, hstB⟩ :=
    new_ok_elim env pk ra sid sb md ms cs g0p st2 h2
  have hb : b1 = b2 := Except.ok.inj (hrA.symm.trans hrB)
  subst hb
  have hs : s1 = s2 := Except.ok.inj (hdA.symm.trans hdB)
  subst hs
  have hr : r1 = r2 := Option.some.inj (hrwA.symm.trans hrwB)
  subst hr
  have hw : w1 = w2 := Option.some.inj (hwA.symm.trans hwB)
  subst hw
  subst hstA
  subst hstB
  unfold runIter
  exact runAux_pure env hpure _ _ _ ⟨rfl, rfl, rfl, rfl, rfl, rfl, rfl⟩ rfl

/-- Closed instance of claim C8 with a stateful but seed-pure generator. -/
theorem c8_witness : runIter envN (stN 0) = runIter envN (stN 5) :=
  c8_determinism envN (fun _ _ _ => rfl) 20 21 22 0 mdW 65536 csW 0 5
    (stN 0) (stN 5) rfl rfl

/-- Claim C9: a candidate whose `chunk_offset` does not index the audited
s-bucket row makes construction panic via `expect` rather than return a
typed error or drop the candidate; when every candidate is in range the
panic is unreachable and construction succeeds. -/
theorem c9_filter_expect {G : Type} (env : ProvingEnv G)
    (pk ra sid sb : Nat) (md : SectorMetadataChecksummed) (ms : Nat)
    (cs : List ChunkCandidate) (g0 : G)
    (hms : ¬ ms < NUM_S_BUCKETS) (bytes : List Nat)
    (hread : env.sector_read_at (env.encoded_size md.pieces_in_sector) 0 = .ok bytes)
    (scm : SectorContentsMap)
    (hdec : env.from_bytes bytes md.pieces_in_sector = .ok scm)
    (srecords : List (Nat × Bool))
    (hrow : scm.records.get? sb = some srecords) :
    ((∃ c ∈ cs, srecords.length ≤ c.chunk_offset) →
      SolutionsIterator.new env pk ra sid sb md ms cs g0
        = (.panic "Wouldnt be a candidate if wasnt within s-bucket; qed", 1)) ∧
    ((∀ c ∈ cs, c.chunk_offset < srecords.length) →
      ∃ st0, (SolutionsIterator.new env pk ra sid sb md ms cs g0).1 = .ok st0) := by
  constructor
  · intro hex
    unfold SolutionsIterator.new
    rw [if_neg hms, hread]
    dsimp only
    rw [hdec]
    dsimp only
    rw [show scm.iter_s_bucket_records sb = some srecords from hrow]
    dsimp only
    rw [winningChunksOf_oob cs srecords hex]
  · intro hall
    unfold SolutionsIterator.new
    rw [if_neg hms, hread]
    dsimp only
    rw [hdec]
    dsimp only
    rw [show scm.iter_s_bucket_records sb = some srecords from hrow]
    dsimp only
    rw [winningChunksOf_eq_spec cs srecords hall]
    exact ⟨_, rfl⟩

/-- Closed instance of claim C9: an out-of-range candidate panics, in-range
candidates construct successfully. -/
theorem c9_witness :
    SolutionsIterator.new envW 20 21 22 0 mdW 65536 csBad ()
      = (.panic "Wouldnt be a candidate if wasnt within s-bucket; qed", 1) ∧
    ∃ st0, (SolutionsIterator.new envW 20 21 22 0 mdW 65536 csW ()).1 = .ok st0 :=
  ⟨(c9_filter_expect envW 20 21 22 0 mdW 65536 csBad () (by decide) [7] rfl
      { records := [[(0, true), (1, false)]] } rfl [(0, true), (1, false)] rfl).1
      (by decide),
    (c9_filter_expect envW 20 21 22 0 mdW 65536 csW () (by decide) [7] rfl
      { records := [[(0, true), (1, false)]] } rfl [(0, true), (1, false)] rfl).2
      (by decide)⟩

/-- Claim C10: inside `next()`, a `none` chunk at the winning `s_bucket`
index, or `find_proof(s_bucket) = none`, panics via `expect` instead of
yielding an `Err` item; under the preconditions that the contents-map row for
`s_bucket` marks the winning chunk's entry as `(piece_offset, encoded = true)`
(so the spec-modelled reader stores a chunk there) and that the regenerated
table has a proof for `s_bucket`, both panic branches are unreachable and
`next()` yields an item. -/
theorem c10_next_expects {G : Type} (env : ProvingEnv G) (st : SolutionsIterator G)
    (wc : WinningChunk) (rest : List WinningChunk)
    (hwc : st.winning_chunks = wc :: rest) :
    (∀ chunks,
      env.read_sector_record_chunks wc.piece_offset st.sector_metadata.pieces_in_sector
          st.s_bucket_offsets st.sector_contents_map
          (env.gen st.tg_state (derive_evaluation_seed st.sector_id wc.piece_offset
            st.sector_metadata.history_size)).1 = .ok chunks →
      chunks.get? st.s_bucket = some none →
      st.next env = .panic "Winning chunk was plotted; qed") ∧
    (∀ chunks ch poly rmd,
      env.read_sector_record_chunks wc.piece_offset st.sector_metadata.pieces_in_sector
          st.s_bucket_offsets st.sector_contents_map
          (env.gen st.tg_state (derive_evaluation_seed st.sector_id wc.piece_offset
            st.sector_metadata.history_size)).1 = .ok chunks →
      chunks.get? st.s_bucket = some (some ch) →
      env.recover_poly chunks = .ok poly →
      env.read_record_metadata wc.piece_offset st.sector_metadata.pieces_in_sector
        = .ok rmd →
      (env.gen st.tg_state (derive_evaluation_seed st.sector_id wc.piece_offset
        st.sector_metadata.history_size)).1.find_proof st.s_bucket = none →
      st.next env = .panic "Quality exists for this s-bucket; qed") ∧
    (∀ (chunkBytes : Nat → Nat) (row : List (Nat × Bool)),
      env.read_sector_record_chunks wc.piece_offset st.sector_metadata.pieces_in_sector
          st.s_bucket_offsets st.sector_contents_map
          (env.gen st.tg_state (derive_evaluation_seed st.sector_id wc.piece_offset
            st.sector_metadata.history_size)).1
        = .ok (readSectorRecordChunksSpec chunkBytes wc.piece_offset
            st.sector_contents_map) →
      st.s_bucket < NUM_S_BUCKETS →
      st.sector_contents_map.records.get? st.s_bucket = some row →
      row.get? wc.chunk_offset = some (wc.piece_offset, true) →
      (env.gen st.tg_state (derive_evaluation_seed st.sector_id wc.piece_offset
        st.sector_metadata.history_size)).1.find_proof st.s_bucket ≠ none →
      ∃ r st1, st.next env = .item r st1) := by
  cases hg : env.gen st.tg_state (derive_evaluation_seed st.sector_id wc.piece_offset
      st.sector_metadata.history_size) with
  | mk pt gg =>
    dsimp only
    refine ⟨?_, ?_, ?_⟩
    · intro chunks hchunks hget
      have hpp : processOne env st st.tg_state wc = (.panic "Winning chunk was plotted; qed", gg) := by
        unfold processOne
        rw [hg]
        dsimp only
        rw [hchunks]
        dsimp only
        rw [hget]
      exact next_cons_panic env st wc rest hwc _ gg hpp
    · intro chunks ch poly rmd hchunks hget hrec hmd hfp
      have hpp : processOne env st st.tg_state wc = (.panic "Quality exists for this s-bucket; qed", gg) := by
        unfold processOne
        rw [hg]
        dsimp only
        rw [hchunks]
        dsimp only
        rw [hget]
        dsimp only
        rw [hrec]
        dsimp only
        rw [hmd]
        dsimp only
        rw [hfp]
      exact next_cons_panic env st wc rest hwc _ gg hpp
    · intro chunkBytes row hchunks hsb hrow hentry hfp
      obtain ⟨pos, hpos⟩ := Option.ne_none_iff_exists'.mp hfp
      have hmem : (wc.piece_offset, true) ∈ row := List.get?_mem hentry
      have hfind : row.find? (fun pr => pr.1 == wc.piece_offset) ≠ none := by
        intro hnone
        have hall := List.find?_eq_none.mp hnone (wc.piece_offset, true) hmem
        simp at hall
      obtain ⟨pr, hpr⟩ := Option.ne_none_iff_exists'.mp hfind
      have hgets : (readSectorRecordChunksSpec chunkBytes wc.piece_offset
          st.sector_contents_map).get? st.s_bucket
            = some (some (chunkBytes st.s_bucket)) := by
        rw [readSpec_get? chunkBytes wc.piece_offset st.sector_contents_map
          st.s_bucket hsb, hrow]
        dsimp only
        rw [hpr]
      have hstep : ∃ r gr, processOne env st st.tg_state wc = (.item r, gr) := by
        unfold processOne
        rw [hg]
        dsimp only
        rw [hchunks]
        dsimp only
        rw [hgets]
        dsimp only
        cases hrec : env.recover_poly (readSectorRecordChunksSpec chunkBytes
            wc.piece_offset st.sector_contents_map) with
        | error e => exact ⟨_, _, rfl⟩
        | ok poly =>
          dsimp only
          cases hmd : env.read_record_metadata wc.piece_offset
              st.sector_metadata.pieces_in_sector with
          | error e => exact ⟨_, _, rfl⟩
          | ok rmd =>
            dsimp only
            rw [hpos]
            dsimp only
            cases hcw : env.create_witness poly NUM_S_BUCKETS st.s_bucket with
            | error e => exact ⟨_, _, rfl⟩
            | ok w => exact ⟨_, _, rfl⟩
      obtain ⟨r, gr, hpr2⟩ := hstep
      exact ⟨r, _, next_cons env st wc rest hwc r gr hpr2⟩

/-- Closed instances of claim C10: both panic branches fire on crafted
environments, and the preconditions rule them out on the spec-modelled
reader. -/
theorem c10_witness :
    stW.next envWnone = .panic "Winning chunk was plotted; qed" ∧
    stW.next envWnoProof = .panic "Quality exists for this s-bucket; qed" ∧
    ∃ r st1, stW.next envWspecRead = .item r st1 :=
  ⟨(c10_next_expects envWnone stW wcW [] rfl).1 [none] rfl rfl,
    (c10_next_expects envWnoProof stW wcW [] rfl).2.1 [some 9, some 10] 9 11
      { commitment := 12, witness := 13 } rfl rfl rfl rfl rfl,
    (c10_next_expects envWspecRead stW wcW [] rfl).2.2 (fun _ => 9)
      [(0, true), (1, false)] rfl (by decide) rfl rfl (by decide)⟩

end Subspace
